import Mathlib

/-!
A shallow embedding of the `gd-cell` crate and proofs about it.

The crate contains two borrow-tracking state machines:

* `src/borrow_state.rs` defines the public `BorrowState` with a `poisoned`
  flag and six public operations; it is embedded in namespace
  `BorrowStateRs`.
* `src/lib.rs` defines `GdCell` together with its own private, simpler
  `BorrowState` (no poison flag); both are embedded in namespace `LibRs`.

Machine integers: `usize` values are embedded as `Nat` together with the
bound `USIZE_MAX`; `checked_add`/`checked_sub` mirror the Rust methods for
values in the representable range.

Panics: Rust code that can panic (an `assert!`, an underflowing `usize`
subtraction, an `unwrap()` of `None`/`Err`) is embedded as an
`Option`-valued function where `none` is the panic.  For the underflowing
subtraction in `has_possibly_aliasing` / `possibly_aliasing_count` the
debug build panics at the subtraction and the release build wraps, which
then makes the `assert!`/comparison observe a value far above `1`; in
`has_possibly_aliasing` both builds therefore end in a panic, and the
embedding returns `none` exactly in that case.
-/

/-- The crate tracks counters as `usize`; this is `usize::MAX` for the
64-bit targets the crate is built for. -/
def USIZE_MAX : Nat := 2 ^ 64 - 1

/-- Rust `usize::checked_add` for values in the representable range. -/
def usizeCheckedAdd (a b : Nat) : Option Nat :=
  if a + b ≤ USIZE_MAX then some (a + b) else none

/-- Rust `usize::checked_sub` for values in the representable range. -/
def usizeCheckedSub (a b : Nat) : Option Nat :=
  if b ≤ a then some (a - b) else none

namespace BorrowStateRs

/-- Rust `BorrowState` from `src/borrow_state.rs`. -/
structure BorrowState where
  /-- The number of tracked `&T` references. -/
  shared_count : Nat
  /-- The number of tracked `&mut T` references. -/
  mut_count : Nat
  /-- The number of `&mut T` references that cannot be aliased. -/
  non_aliasing_count : Nat
  /-- Set to `true` if the borrow state has reached an erroneous or unreliable state. -/
  poisoned : Bool
deriving DecidableEq, Repr

/-- Rust `BorrowState::new()`. -/
def BorrowState.new : BorrowState :=
  { shared_count := 0, mut_count := 0, non_aliasing_count := 0, poisoned := false }

/-- Rust `BorrowStateErr` from `src/borrow_state.rs`. -/
inductive BorrowStateErr where
  | NoSharedRef
  | HasSharedRef
  | NoMutRef
  | HasMutRef
  | IsNonAliasing
  | NoAliasingRef
  | HasAliasingRef
  | IsPoisoned
  | Poisoned (msg : String)
  | Custom (msg : String)
deriving DecidableEq, Repr

deriving instance DecidableEq for Except

/-- Rust `BorrowState::has_possibly_aliasing`.  The Rust body computes the
`usize` difference `mut_count - non_aliasing_count` and asserts it is at
most `1`; the embedding returns `none` (panic) when the subtraction would
underflow or the assertion would fire, and otherwise reports whether the
difference equals `1`. -/
def has_possibly_aliasing (s : BorrowState) : Option Bool :=
  if s.non_aliasing_count ≤ s.mut_count ∧ s.mut_count - s.non_aliasing_count ≤ 1 then
    some (s.mut_count - s.non_aliasing_count == 1)
  else
    none

/-- Rust `BorrowState::has_shared_reference`. -/
def has_shared_reference (s : BorrowState) : Bool :=
  s.shared_count > 0

/-- Rust `BorrowState::is_poisoned`. -/
def is_poisoned (s : BorrowState) : Bool :=
  s.poisoned

/-- Rust `BorrowState::ensure_not_poisoned`. -/
def ensure_not_poisoned (s : BorrowState) : Except BorrowStateErr Unit :=
  if is_poisoned s then .error .IsPoisoned else .ok ()

/-- Rust `BorrowState::ensure_can_ref` (`none` = panic inside
`has_possibly_aliasing`). -/
def ensure_can_ref (s : BorrowState) : Option (Except BorrowStateErr Unit) :=
  match ensure_not_poisoned s with
  | .error e => some (.error e)
  | .ok () =>
    match has_possibly_aliasing s with
    | none => none
    | some true => some (.error .HasAliasingRef)
    | some false => some (.ok ())

/-- Rust `BorrowState::ensure_can_mut_ref` (`none` = panic inside
`has_possibly_aliasing`). -/
def ensure_can_mut_ref (s : BorrowState) : Option (Except BorrowStateErr Unit) :=
  match ensure_not_poisoned s with
  | .error e => some (.error e)
  | .ok () =>
    match has_possibly_aliasing s with
    | none => none
    | some true => some (.error .HasAliasingRef)
    | some false =>
      if s.shared_count ≠ 0 then some (.error .HasSharedRef)
      else some (.ok ())

/-- The result of one `&mut self` operation: `none` is a panic; otherwise
the state after the call (the Rust `poison` method mutates the state even on the
error path) together with the returned `Result<usize, BorrowStateErr>`. -/
abbrev OpResult := Option (BorrowState × Except BorrowStateErr Nat)

/-- Rust `BorrowState::increment_shared`. -/
def increment_shared (s : BorrowState) : OpResult :=
  match ensure_not_poisoned s with
  | .error e => some (s, .error e)
  | .ok () =>
    match ensure_can_ref s with
    | none => none
    | some (.error e) => some (s, .error e)
    | some (.ok ()) =>
      match usizeCheckedAdd s.shared_count 1 with
      | none => some (s, .error (.Custom "could not increment shared count"))
      | some n => some ({ s with shared_count := n }, .ok n)

/-- Rust `BorrowState::decrement_shared`. -/
def decrement_shared (s : BorrowState) : OpResult :=
  match ensure_not_poisoned s with
  | .error e => some (s, .error e)
  | .ok () =>
    if s.shared_count = 0 then some (s, .error .NoSharedRef)
    else
      match has_possibly_aliasing s with
      | none => none
      | some true =>
        some ({ s with poisoned := true },
          .error (.Poisoned "shared reference tracked while aliasing mutable reference exists"))
      | some false =>
        some ({ s with shared_count := s.shared_count - 1 }, .ok (s.shared_count - 1))

/-- Rust `BorrowState::increment_mut`. -/
def increment_mut (s : BorrowState) : OpResult :=
  match ensure_not_poisoned s with
  | .error e => some (s, .error e)
  | .ok () =>
    match ensure_can_mut_ref s with
    | none => none
    | some (.error e) => some (s, .error e)
    | some (.ok ()) =>
      match usizeCheckedAdd s.mut_count 1 with
      | none => some (s, .error (.Custom "could not increment mut count"))
      | some n => some ({ s with mut_count := n }, .ok n)

/-- Rust `BorrowState::decrement_mut`. -/
def decrement_mut (s : BorrowState) : OpResult :=
  match ensure_not_poisoned s with
  | .error e => some (s, .error e)
  | .ok () =>
    if s.mut_count = 0 then some (s, .error .NoMutRef)
    else if s.mut_count = s.non_aliasing_count then some (s, .error .IsNonAliasing)
    else if s.mut_count - 1 ≠ s.non_aliasing_count then
      some ({ s with poisoned := true },
        .error (.Poisoned "`non_aliasing_count` does not fit its invariant"))
    else
      some ({ s with mut_count := s.mut_count - 1 }, .ok (s.mut_count - 1))

/-- Rust `BorrowState::set_non_aliasing`.  Note: unlike the four functions
above, the Rust source does *not* call `ensure_not_poisoned` here. -/
def set_non_aliasing (s : BorrowState) : OpResult :=
  match has_possibly_aliasing s with
  | none => none
  | some false => some (s, .error .NoAliasingRef)
  | some true =>
    match usizeCheckedAdd s.non_aliasing_count 1 with
    | none => some (s, .error (.Custom "could not increment non-aliasing count"))
    | some n => some ({ s with non_aliasing_count := n }, .ok n)

/-- Rust `BorrowState::unset_non_aliasing`.  Note: the Rust source does *not*
call `ensure_not_poisoned` here either. -/
def unset_non_aliasing (s : BorrowState) : OpResult :=
  match has_possibly_aliasing s with
  | none => none
  | some true => some (s, .error .HasAliasingRef)
  | some false =>
    if has_shared_reference s then some (s, .error .HasSharedRef)
    else if s.non_aliasing_count = 0 then
      some (s, .error (.Custom
        "cannot mark mut pointer as aliasing when there are no possibly aliasing pointers"))
    else
      match usizeCheckedSub s.non_aliasing_count 1 with
      | none => some (s, .error (.Custom "could not decrement non-aliasing count"))
      | some n => some ({ s with non_aliasing_count := n }, .ok n)

/-- The six public operations, as in the `Operation` enum of the crate
property tests. -/
inductive Op where
  | incShared
  | decShared
  | incMut
  | decMut
  | setNonAliasing
  | unsetNonAliasing
deriving DecidableEq, Repr

/-- Dispatch one operation (`Operation::execute` in the crate tests). -/
def apply (s : BorrowState) : Op → OpResult
  | .incShared => increment_shared s
  | .decShared => decrement_shared s
  | .incMut => increment_mut s
  | .decMut => decrement_mut s
  | .setNonAliasing => set_non_aliasing s
  | .unsetNonAliasing => unset_non_aliasing s

/-- Execute one operation ignoring its `Result` (but not a panic), as in
`OperationExecutor::execute_all`. -/
def step (s : BorrowState) (op : Op) : Option BorrowState :=
  (apply s op).map Prod.fst

/-- Execute a whole trace of operations from a given state, ignoring each
returned `Result`; `none` if some operation panics. -/
def run (s : BorrowState) : List Op → Option BorrowState
  | [] => some s
  | op :: ops =>
    match step s op with
    | none => none
    | some s2 => run s2 ops

/-- A state is reachable when some trace of public operations, failures
ignored, produces it from `BorrowState::new()`. -/
def Reachable (s : BorrowState) : Prop :=
  ∃ ops : List Op, run BorrowState.new ops = some s

/-- The inductive invariant of the state machine: the counters are
`usize`-representable, `non_aliasing_count ≤ mut_count ≤
non_aliasing_count + 1`, shared borrows exclude a possibly-aliasing
mutable borrow, and the state is not poisoned. -/
def Inv (s : BorrowState) : Prop :=
  s.non_aliasing_count ≤ s.mut_count ∧
  s.mut_count ≤ s.non_aliasing_count + 1 ∧
  (0 < s.shared_count → s.mut_count = s.non_aliasing_count) ∧
  s.poisoned = false ∧
  s.shared_count ≤ USIZE_MAX ∧
  s.mut_count ≤ USIZE_MAX ∧
  s.non_aliasing_count ≤ USIZE_MAX

/-- The state an operation is expected to produce when it succeeds, as in
the crate property test `operations_do_only_whats_expected_or_nothing`:
exactly one counter moves, by exactly one. -/
def expected_on_success (op : Op) (s : BorrowState) : BorrowState :=
  match op with
  | .incShared => { s with shared_count := s.shared_count + 1 }
  | .decShared => { s with shared_count := s.shared_count - 1 }
  | .incMut => { s with mut_count := s.mut_count + 1 }
  | .decMut => { s with mut_count := s.mut_count - 1 }
  | .setNonAliasing => { s with non_aliasing_count := s.non_aliasing_count + 1 }
  | .unsetNonAliasing => { s with non_aliasing_count := s.non_aliasing_count - 1 }


/-- The behaviour of one operation on an invariant state: it never
panics, on success it moves exactly the documented counter by one, and on
failure it leaves the state unchanged and never reports a poison error. -/
def OpSpec (op : Op) (s : BorrowState) (r : OpResult) : Prop :=
  ∃ s2 e, r = some (s2, e) ∧ Inv s2 ∧
    (∀ n, e = .ok n → s2 = expected_on_success op s) ∧
    (∀ err, e = .error err → s2 = s ∧ err ≠ .IsPoisoned ∧ ∀ msg, err ≠ .Poisoned msg)

/-- Returns `true` exactly on the two poison-reporting error values
(`IsPoisoned`, `Poisoned(_)`). -/
def BorrowStateErr.isPoisonErr : BorrowStateErr → Bool
  | .IsPoisoned => true
  | .Poisoned _ => true
  | _ => false

/-- Returns `true` when a returned `Result` is a poison-reporting failure. -/
def isPoisonResult : Except BorrowStateErr Nat → Bool
  | .error err => err.isPoisonErr
  | .ok _ => false

end BorrowStateRs

namespace LibRs

/-- The private `BorrowState` defined inside `src/lib.rs` (no poison
flag). -/
structure BorrowState where
  /-- The number of tracked `&T` references. -/
  shared_count : Nat
  /-- The number of tracked `&mut T` references. -/
  mut_count : Nat
  /-- The number of `&mut T` references that cannot be aliased. -/
  non_aliasing_count : Nat
deriving DecidableEq, Repr

/-- Rust `BorrowState::new()` in `src/lib.rs`. -/
def BorrowState.new : BorrowState :=
  { shared_count := 0, mut_count := 0, non_aliasing_count := 0 }

/-- Rust `BorrowState::possibly_aliasing_count` in `src/lib.rs`: the `usize`
subtraction `mut_count - non_aliasing_count`; `none` is the debug-build
underflow panic. -/
def possibly_aliasing_count (s : BorrowState) : Option Nat :=
  if s.non_aliasing_count ≤ s.mut_count then some (s.mut_count - s.non_aliasing_count)
  else none

/-- Rust `BorrowState::may_ref` in `src/lib.rs`. -/
def may_ref (s : BorrowState) : Option Bool :=
  (possibly_aliasing_count s).map (· == 0)

/-- Rust `BorrowState::may_mut_ref` in `src/lib.rs`. -/
def may_mut_ref (s : BorrowState) : Option Bool :=
  (possibly_aliasing_count s).map (fun k => k == 0 && s.shared_count == 0)

/-- Rust `BorrowState::increment_shared` in `src/lib.rs` (`none` = panic, the
`Except` carries `Result<(), String>` together with the updated state). -/
def increment_shared (s : BorrowState) : Option (Except String BorrowState) :=
  match may_ref s with
  | none => none
  | some false =>
    some (.error "cannot increment shared as there exist possibly aliasing mutable references")
  | some true =>
    match usizeCheckedAdd s.shared_count 1 with
    | none => some (.error "could not increment shared count")
    | some n => some (.ok { s with shared_count := n })

/-- Rust `BorrowState::decrement_shared` in `src/lib.rs`: a `debug_assert!`
that no possibly-aliasing mutable reference exists, then
`checked_sub(1).unwrap()`; every failure is a panic (`none`). -/
def decrement_shared (s : BorrowState) : Option BorrowState :=
  match possibly_aliasing_count s with
  | none => none
  | some k =>
    if k ≠ 0 then none
    else
      match usizeCheckedSub s.shared_count 1 with
      | none => none
      | some n => some { s with shared_count := n }

/-- Rust `BorrowState::increment_mut` in `src/lib.rs`. -/
def increment_mut (s : BorrowState) : Option (Except String BorrowState) :=
  match possibly_aliasing_count s with
  | none => none
  | some k =>
    if k ≠ 0 then
      some (.error "cannot increment mut as there exist possibly aliasing mutable references")
    else if s.shared_count ≠ 0 then
      some (.error "cannot increment mut as there exist shared references")
    else
      match usizeCheckedAdd s.mut_count 1 with
      | none => some (.error "could not increment mut count")
      | some n => some (.ok { s with mut_count := n })

/-- Rust `BorrowState::decrement_mut` in `src/lib.rs`: a `debug_assert!` that
`mut_count = non_aliasing_count + 1`, then `checked_sub(1).unwrap()` and
`non_aliasing_count := mut_count`; every failure is a panic. -/
def decrement_mut (s : BorrowState) : Option BorrowState :=
  if s.mut_count = s.non_aliasing_count + 1 then
    match usizeCheckedSub s.mut_count 1 with
    | none => none
    | some n => some { s with mut_count := n, non_aliasing_count := n }
  else none

/-- Rust `BorrowState::increment_non_aliasing` in `src/lib.rs`. -/
def increment_non_aliasing (s : BorrowState) : Option (Except String BorrowState) :=
  match possibly_aliasing_count s with
  | none => none
  | some k =>
    if k = 0 then
      some (.error
        "cannot set mut reference as non-aliasing when there are no possibly aliasing pointers")
    else
      match usizeCheckedAdd s.non_aliasing_count 1 with
      | none => some (.error "could not increment non-aliasing count")
      | some n => some (.ok { s with non_aliasing_count := n })

/-- Rust `BorrowState::decrement_non_aliasing` in `src/lib.rs`. -/
def decrement_non_aliasing (s : BorrowState) : Option (Except String BorrowState) :=
  match possibly_aliasing_count s with
  | none => none
  | some k =>
    if k > 0 then
      some (.error "cannot have more than 1 possibly aliasing pointers")
    else if s.non_aliasing_count = 0 then
      some (.error
        "cannot mark mut pointer as aliasing when there are no possibly aliasing pointers")
    else
      match usizeCheckedSub s.non_aliasing_count 1 with
      | none => some (.error "could not decrement non-aliasing count")
      | some n => some (.ok { s with non_aliasing_count := n })

/-- Rust `GdCell<T>` from `src/lib.rs`.  The `UnsafeCell<T>` storage is the
`value` field; its fixed machine address (the cell is pinned) is `base`;
`current_ptr` is the `Mutex<Vec<*mut T>>` address stack, addresses
embedded as `Nat`, with the last element of the `Vec` as the top. -/
structure GdCell (α : Type) where
  state : BorrowState
  value : α
  current_ptr : List Nat
  base : Nat
deriving DecidableEq, Repr

/-- Rust `GdCell::new` (the `base` address is where the storage of the pinned cell
lives). -/
def GdCell.new (v : α) (base : Nat) : GdCell α :=
  { state := BorrowState.new, value := v, current_ptr := [], base := base }

/-- The data held by a returned `GdRef` guard that the embedding needs:
the `*mut T` it dereferences through. -/
structure GdRef where
  ptr : Nat
deriving DecidableEq, Repr

/-- The data held by a returned `GdMut` guard that the embedding needs:
the `mut_count` captured at creation and the `*mut T` it dereferences
through. -/
structure GdMut where
  count : Nat
  ptr : Nat
deriving DecidableEq, Repr

/-- Rust `GdCell::get_value`: push the base address when the stack is empty,
then `last().unwrap()` (`none` = the unreachable unwrap panic). -/
def get_value (c : GdCell α) : Option (Nat × GdCell α) :=
  let ptr_vec := if c.current_ptr.isEmpty then c.current_ptr.concat c.base else c.current_ptr
  ptr_vec.getLast?.map fun p => (p, { c with current_ptr := ptr_vec })

/-- Rust `GdCell::gd_ref`: `increment_shared`, then build a guard over the
currently active address.  Returns the cell after the call and the
`Result`. -/
def gd_ref (c : GdCell α) : Option (GdCell α × Except String GdRef) :=
  match increment_shared c.state with
  | none => none
  | some (.error e) => some (c, .error e)
  | some (.ok s2) =>
    match get_value { c with state := s2 } with
    | none => none
    | some (p, c2) => some (c2, .ok { ptr := p })

/-- Rust `GdCell::gd_mut`: `increment_mut`, capture the new `mut_count`, then
build a guard over the currently active address. -/
def gd_mut (c : GdCell α) : Option (GdCell α × Except String GdMut) :=
  match increment_mut c.state with
  | none => none
  | some (.error e) => some (c, .error e)
  | some (.ok s2) =>
    match get_value { c with state := s2 } with
    | none => none
    | some (p, c2) => some (c2, .ok { count := s2.mut_count, ptr := p })

/-- Rust `GdCell::set_non_aliasing`, called with the address of the supplied
`&mut T`.  Mirrors the source exactly: `last().unwrap()` on the address
stack (`none` = panic on an empty stack), the wrong-reference early
return, then `increment_non_aliasing` followed *unconditionally* by a
push of the matching address — the push happens even when
`increment_non_aliasing` failed. -/
def set_non_aliasing (c : GdCell α) (ptr : Nat) : Option (GdCell α × Except String Unit) :=
  match c.current_ptr.getLast? with
  | none => none
  | some current_ptr =>
    if current_ptr ≠ ptr then some (c, .error "wrong reference passed in")
    else
      match increment_non_aliasing c.state with
      | none => none
      | some (.ok s2) =>
        some ({ c with state := s2, current_ptr := c.current_ptr.concat ptr }, .ok ())
      | some (.error e) =>
        some ({ c with current_ptr := c.current_ptr.concat ptr }, .error e)

/-- Rust `<GdRef as Drop>::drop`: `decrement_shared` (whose failures are
panics). -/
def drop_gd_ref (c : GdCell α) : Option (GdCell α) :=
  (decrement_shared c.state).map fun s2 => { c with state := s2 }

/-- Rust `<GdMut as Drop>::drop`: `decrement_mut` (whose failures are
panics). -/
def drop_gd_mut (c : GdCell α) : Option (GdCell α) :=
  (decrement_mut c.state).map fun s2 => { c with state := s2 }

/-- Rust `<NonAliasingGuard as Drop>::drop`: `decrement_non_aliasing().unwrap()`
then `pop().unwrap()` on the address stack; `none` = panic. -/
def drop_non_aliasing_guard (c : GdCell α) : Option (GdCell α) :=
  match decrement_non_aliasing c.state with
  | none => none
  | some (.error _) => none
  | some (.ok s2) =>
    match c.current_ptr.getLast? with
    | none => none
    | some _ => some { c with state := s2, current_ptr := c.current_ptr.dropLast }

/-- Rust `<GdMut as DerefMut>::deref_mut`: assert the captured `mut_count`
still matches, then hand out `&mut T` at the address held by the guard; the
embedding exposes the address (`none` = the assertion panic). -/
def gd_mut_deref_mut (c : GdCell α) (g : GdMut) : Option Nat :=
  if g.count = c.state.mut_count then some g.ptr else none

/-- Writing through a `&mut T` whose address is `p`: only the storage owned by the modelled
cell exists in the embedding, so the write requires
`p = c.base`. -/
def write_ptr (c : GdCell α) (p : Nat) (v : α) : Option (GdCell α) :=
  if p = c.base then some { c with value := v } else none

/-- Reading through a `&T`/`&mut T` whose address is `p`; as with
`write_ptr`, only the storage owned by the cell is modelled. -/
def read_ptr (c : GdCell α) (p : Nat) : Option α :=
  if p = c.base then some c.value else none

end LibRs

namespace BorrowStateRs

/-- Under the invariant bounds the `usize` subtraction in
`has_possibly_aliasing` neither underflows nor trips the assertion, and
the reported flag is exactly `mut_count = non_aliasing_count + 1`. -/
theorem has_possibly_aliasing_of_inv (s : BorrowState)
    (h1 : s.non_aliasing_count ≤ s.mut_count)
    (h2 : s.mut_count ≤ s.non_aliasing_count + 1) :
    has_possibly_aliasing s = some (s.mut_count == s.non_aliasing_count + 1) := by
  unfold has_possibly_aliasing
  rw [if_pos ⟨h1, by omega⟩]
  rcases Nat.lt_or_ge s.mut_count (s.non_aliasing_count + 1) with hlt | hge
  · have hm : s.mut_count = s.non_aliasing_count := by omega
    have e1 : (s.mut_count - s.non_aliasing_count == 1) = false :=
      beq_eq_false_iff_ne.mpr (by omega)
    have e2 : (s.mut_count == s.non_aliasing_count + 1) = false :=
      beq_eq_false_iff_ne.mpr (by omega)
    rw [e1, e2]
  · have hm : s.mut_count = s.non_aliasing_count + 1 := by omega
    have e1 : (s.mut_count - s.non_aliasing_count == 1) = true :=
      beq_iff_eq.mpr (by omega)
    have e2 : (s.mut_count == s.non_aliasing_count + 1) = true := beq_iff_eq.mpr hm
    rw [e1, e2]

/-- A non-poisoned state passes `ensure_not_poisoned`. -/
theorem ensure_not_poisoned_ok (s : BorrowState) (h4 : s.poisoned = false) :
    ensure_not_poisoned s = .ok () := by
  simp [ensure_not_poisoned, is_poisoned, h4]

/-- Introduction form of `Inv` on an explicitly built state, convenient
for states produced by record updates. -/
theorem Inv_mk (a m na : Nat) (p : Bool) (h1 : na ≤ m) (h2 : m ≤ na + 1)
    (h3 : 0 < a → m = na) (h4 : p = false) (h5 : a ≤ USIZE_MAX) (h6 : m ≤ USIZE_MAX)
    (h7 : na ≤ USIZE_MAX) :
    Inv { shared_count := a, mut_count := m, non_aliasing_count := na, poisoned := p } :=
  ⟨h1, h2, h3, h4, h5, h6, h7⟩

theorem increment_shared_spec (s : BorrowState) (h : Inv s) :
    OpSpec .incShared s (increment_shared s) := by
  obtain ⟨h1, h2, h3, h4, h5, h6, h7⟩ := h
  have hpa := has_possibly_aliasing_of_inv s h1 h2
  by_cases hc : s.mut_count = s.non_aliasing_count + 1
  · refine ⟨s, .error .HasAliasingRef, ?_, ⟨h1, h2, h3, h4, h5, h6, h7⟩, ?_, ?_⟩
    · simp [increment_shared, ensure_not_poisoned, is_poisoned, h4, ensure_can_ref, hpa, hc]
    · intro n hn; cases hn
    · intro err he; cases he; exact ⟨rfl, by simp, by simp⟩
  · have hm : s.mut_count = s.non_aliasing_count := by omega
    have hfalse : (s.mut_count == s.non_aliasing_count + 1) = false :=
      beq_eq_false_iff_ne.mpr (by omega)
    by_cases hof : s.shared_count + 1 ≤ USIZE_MAX
    · refine ⟨{ s with shared_count := s.shared_count + 1 }, .ok (s.shared_count + 1), ?_,
        ⟨h1, h2, fun _ => hm, h4, hof, h6, h7⟩, ?_, ?_⟩
      · simp [increment_shared, ensure_not_poisoned, is_poisoned, h4, ensure_can_ref, hpa,
          hfalse, usizeCheckedAdd, hof]
      · intro n hn; cases hn; rfl
      · intro err he; cases he
    · refine ⟨s, .error (.Custom "could not increment shared count"), ?_,
        ⟨h1, h2, h3, h4, h5, h6, h7⟩, ?_, ?_⟩
      · simp [increment_shared, ensure_not_poisoned, is_poisoned, h4, ensure_can_ref, hpa,
          hfalse, usizeCheckedAdd, hof]
      · intro n hn; cases hn
      · intro err he; cases he; exact ⟨rfl, by simp, by simp⟩

theorem decrement_shared_spec (s : BorrowState) (h : Inv s) :
    OpSpec .decShared s (decrement_shared s) := by
  obtain ⟨h1, h2, h3, h4, h5, h6, h7⟩ := h
  have hpa := has_possibly_aliasing_of_inv s h1 h2
  by_cases hz : s.shared_count = 0
  · refine ⟨s, .error .NoSharedRef, ?_, ⟨h1, h2, h3, h4, h5, h6, h7⟩, ?_, ?_⟩
    · simp [decrement_shared, ensure_not_poisoned, is_poisoned, h4, hz]
    · intro n hn; cases hn
    · intro err he; cases he; exact ⟨rfl, by simp, by simp⟩
  · have hm : s.mut_count = s.non_aliasing_count := h3 (Nat.pos_of_ne_zero hz)
    have hfalse : (s.mut_count == s.non_aliasing_count + 1) = false :=
      beq_eq_false_iff_ne.mpr (by omega)
    refine ⟨{ s with shared_count := s.shared_count - 1 }, .ok (s.shared_count - 1), ?_,
      Inv_mk _ _ _ _ h1 h2 (fun _ => hm) h4 (by omega) h6 h7, ?_, ?_⟩
    · simp [decrement_shared, ensure_not_poisoned, is_poisoned, h4, hz, hpa, hfalse]
    · intro n hn; cases hn; rfl
    · intro err he; cases he

theorem increment_mut_spec (s : BorrowState) (h : Inv s) :
    OpSpec .incMut s (increment_mut s) := by
  obtain ⟨h1, h2, h3, h4, h5, h6, h7⟩ := h
  have hpa := has_possibly_aliasing_of_inv s h1 h2
  by_cases hc : s.mut_count = s.non_aliasing_count + 1
  · refine ⟨s, .error .HasAliasingRef, ?_, ⟨h1, h2, h3, h4, h5, h6, h7⟩, ?_, ?_⟩
    · simp [increment_mut, ensure_not_poisoned, is_poisoned, h4, ensure_can_mut_ref, hpa, hc]
    · intro n hn; cases hn
    · intro err he; cases he; exact ⟨rfl, by simp, by simp⟩
  · have hm : s.mut_count = s.non_aliasing_count := by omega
    have hfalse : (s.mut_count == s.non_aliasing_count + 1) = false :=
      beq_eq_false_iff_ne.mpr (by omega)
    by_cases hz : s.shared_count = 0
    · by_cases hof : s.mut_count + 1 ≤ USIZE_MAX
      · refine ⟨{ s with mut_count := s.mut_count + 1 }, .ok (s.mut_count + 1), ?_,
          Inv_mk _ _ _ _ (by omega) (by omega) (fun ha => absurd hz (by omega)) h4 h5 hof h7,
          ?_, ?_⟩
        · simp [increment_mut, ensure_not_poisoned, is_poisoned, h4, ensure_can_mut_ref, hpa,
            hfalse, hz, usizeCheckedAdd, hof]
        · intro n hn; cases hn; rfl
        · intro err he; cases he
      · refine ⟨s, .error (.Custom "could not increment mut count"), ?_,
          ⟨h1, h2, h3, h4, h5, h6, h7⟩, ?_, ?_⟩
        · simp [increment_mut, ensure_not_poisoned, is_poisoned, h4, ensure_can_mut_ref, hpa,
            hfalse, hz, usizeCheckedAdd, hof]
        · intro n hn; cases hn
        · intro err he; cases he; exact ⟨rfl, by simp, by simp⟩
    · refine ⟨s, .error .HasSharedRef, ?_, ⟨h1, h2, h3, h4, h5, h6, h7⟩, ?_, ?_⟩
      · simp [increment_mut, ensure_not_poisoned, is_poisoned, h4, ensure_can_mut_ref, hpa,
          hfalse, hz]
      · intro n hn; cases hn
      · intro err he; cases he; exact ⟨rfl, by simp, by simp⟩

theorem decrement_mut_spec (s : BorrowState) (h : Inv s) :
    OpSpec .decMut s (decrement_mut s) := by
  obtain ⟨h1, h2, h3, h4, h5, h6, h7⟩ := h
  by_cases hz : s.mut_count = 0
  · refine ⟨s, .error .NoMutRef, ?_, ⟨h1, h2, h3, h4, h5, h6, h7⟩, ?_, ?_⟩
    · simp [decrement_mut, ensure_not_poisoned, is_poisoned, h4, hz]
    · intro n hn; cases hn
    · intro err he; cases he; exact ⟨rfl, by simp, by simp⟩
  · by_cases hna : s.mut_count = s.non_aliasing_count
    · refine ⟨s, .error .IsNonAliasing, ?_, ⟨h1, h2, h3, h4, h5, h6, h7⟩, ?_, ?_⟩
      · unfold decrement_mut
        rw [ensure_not_poisoned_ok s h4]
        simp [if_neg hz, if_pos hna]
      · intro n hn; cases hn
      · intro err he; cases he; exact ⟨rfl, by simp, by simp⟩
    · have hm : s.mut_count = s.non_aliasing_count + 1 := by omega
      have hfit : ¬s.mut_count - 1 ≠ s.non_aliasing_count := by omega
      refine ⟨{ s with mut_count := s.mut_count - 1 }, .ok (s.mut_count - 1), ?_,
        Inv_mk _ _ _ _ (by omega) (by omega) (fun _ => by omega) h4 h5 (by omega) h7, ?_, ?_⟩
      · unfold decrement_mut
        rw [ensure_not_poisoned_ok s h4]
        simp [if_neg hz, if_neg hna, if_neg hfit]
      · intro n hn; cases hn; rfl
      · intro err he; cases he

theorem set_non_aliasing_spec (s : BorrowState) (h : Inv s) :
    OpSpec .setNonAliasing s (set_non_aliasing s) := by
  obtain ⟨h1, h2, h3, h4, h5, h6, h7⟩ := h
  have hpa := has_possibly_aliasing_of_inv s h1 h2
  by_cases hc : s.mut_count = s.non_aliasing_count + 1
  · have ha : s.shared_count = 0 := by
      by_contra hs
      have := h3 (Nat.pos_of_ne_zero hs)
      omega
    have hof : s.non_aliasing_count + 1 ≤ USIZE_MAX := by omega
    refine ⟨{ s with non_aliasing_count := s.non_aliasing_count + 1 },
      .ok (s.non_aliasing_count + 1), ?_,
      Inv_mk _ _ _ _ (by omega) (by omega) (fun hpos => absurd ha (by omega)) h4 h5 h6 hof,
      ?_, ?_⟩
    · simp [set_non_aliasing, hpa, hc, usizeCheckedAdd, hof]
    · intro n hn; cases hn; rfl
    · intro err he; cases he
  · have hfalse : (s.mut_count == s.non_aliasing_count + 1) = false :=
      beq_eq_false_iff_ne.mpr (by omega)
    refine ⟨s, .error .NoAliasingRef, ?_, ⟨h1, h2, h3, h4, h5, h6, h7⟩, ?_, ?_⟩
    · simp [set_non_aliasing, hpa, hfalse]
    · intro n hn; cases hn
    · intro err he; cases he; exact ⟨rfl, by simp, by simp⟩

theorem unset_non_aliasing_spec (s : BorrowState) (h : Inv s) :
    OpSpec .unsetNonAliasing s (unset_non_aliasing s) := by
  obtain ⟨h1, h2, h3, h4, h5, h6, h7⟩ := h
  have hpa := has_possibly_aliasing_of_inv s h1 h2
  by_cases hc : s.mut_count = s.non_aliasing_count + 1
  · refine ⟨s, .error .HasAliasingRef, ?_, ⟨h1, h2, h3, h4, h5, h6, h7⟩, ?_, ?_⟩
    · simp [unset_non_aliasing, hpa, hc]
    · intro n hn; cases hn
    · intro err he; cases he; exact ⟨rfl, by simp, by simp⟩
  · have hm : s.mut_count = s.non_aliasing_count := by omega
    have hfalse : (s.mut_count == s.non_aliasing_count + 1) = false :=
      beq_eq_false_iff_ne.mpr (by omega)
    by_cases hs : s.shared_count > 0
    · refine ⟨s, .error .HasSharedRef, ?_, ⟨h1, h2, h3, h4, h5, h6, h7⟩, ?_, ?_⟩
      · simp [unset_non_aliasing, hpa, hfalse, has_shared_reference, hs]
      · intro n hn; cases hn
      · intro err he; cases he; exact ⟨rfl, by simp, by simp⟩
    · by_cases hz : s.non_aliasing_count = 0
      · refine ⟨s, .error (.Custom
          "cannot mark mut pointer as aliasing when there are no possibly aliasing pointers"),
          ?_, ⟨h1, h2, h3, h4, h5, h6, h7⟩, ?_, ?_⟩
        · unfold unset_non_aliasing
          rw [hpa, hfalse]
          simp [has_shared_reference, hs, if_pos hz]
        · intro n hn; cases hn
        · intro err he; cases he; exact ⟨rfl, by simp, by simp⟩
      · have hone : 1 ≤ s.non_aliasing_count := by omega
        refine ⟨{ s with non_aliasing_count := s.non_aliasing_count - 1 },
          .ok (s.non_aliasing_count - 1), ?_,
          Inv_mk _ _ _ _ (by omega) (by omega) (fun hpos => absurd hpos (by omega)) h4 h5 h6
            (by omega), ?_, ?_⟩
        · unfold unset_non_aliasing
          rw [hpa, hfalse]
          simp [has_shared_reference, hs, if_neg hz, usizeCheckedSub, hone]
        · intro n hn; cases hn; rfl
        · intro err he; cases he

/-- Every public operation satisfies its one-step specification on every
invariant state. -/
theorem apply_spec (s : BorrowState) (op : Op) (h : Inv s) : OpSpec op s (apply s op) := by
  cases op
  case incShared => exact increment_shared_spec s h
  case decShared => exact decrement_shared_spec s h
  case incMut => exact increment_mut_spec s h
  case decMut => exact decrement_mut_spec s h
  case setNonAliasing => exact set_non_aliasing_spec s h
  case unsetNonAliasing => exact unset_non_aliasing_spec s h

/-- The initial state satisfies the invariant. -/
theorem Inv_new : Inv BorrowState.new := by
  refine ⟨?_, ?_, ?_, ?_, ?_, ?_, ?_⟩ <;> simp [BorrowState.new, USIZE_MAX]

/-- The invariant is preserved along every trace. -/
theorem run_inv (ops : List Op) : ∀ s s2, Inv s → run s ops = some s2 → Inv s2 := by
  induction ops with
  | nil =>
    intro s s2 h hr
    cases hr
    exact h
  | cons op ops ih =>
    intro s s2 h hr
    obtain ⟨t, e, happ, hinv, -, -⟩ := apply_spec s op h
    have hstep : step s op = some t := by simp [step, happ]
    rw [run, hstep] at hr
    exact ih t s2 hinv hr

/-- Every reachable state satisfies the invariant. -/
theorem reachable_inv (s : BorrowState) (h : Reachable s) : Inv s := by
  obtain ⟨ops, hops⟩ := h
  exact run_inv ops BorrowState.new s Inv_new hops

/-- The function `run` splits along list concatenation. -/
theorem run_append (l1 l2 : List Op) :
    ∀ s, run s (l1 ++ l2) = (run s l1).bind fun t => run t l2 := by
  induction l1 with
  | nil => intro s; simp [run]
  | cons op l ih =>
    intro s
    rw [List.cons_append, run, run]
    cases hstep : step s op with
    | none => simp
    | some t => simp [ih]

/-- One successful (panic-free) step peels off the head of a trace. -/
theorem run_cons_of_step (s s2 : BorrowState) (op : Op) (l : List Op)
    (h : step s op = some s2) : run s (op :: l) = run s2 l := by
  rw [run, h]

/-- On an invariant state whose shared count can still be incremented, an
`increment_shared` immediately followed by a `decrement_shared` is a
no-op for the rest of the trace. -/
theorem run_inc_dec (a m na : Nat) (h1 : na ≤ m) (h2 : m ≤ na + 1) (h3 : 0 < a → m = na)
    (hmax : a + 1 ≤ USIZE_MAX) (l : List Op) :
    run ⟨a, m, na, false⟩ (.incShared :: .decShared :: l) = run ⟨a, m, na, false⟩ l := by
  have hpa : has_possibly_aliasing ⟨a, m, na, false⟩ = some (m == na + 1) := by
    have h := has_possibly_aliasing_of_inv ⟨a, m, na, false⟩ h1 h2
    simpa using h
  by_cases hc : m = na + 1
  · have ha : a = 0 := by
      by_contra hs
      exact absurd (h3 (Nat.pos_of_ne_zero hs)) (by omega)
    subst ha
    have hb : (m == na + 1) = true := beq_iff_eq.mpr hc
    have hstep1 : step ⟨0, m, na, false⟩ .incShared = some ⟨0, m, na, false⟩ := by
      simp [step, apply, increment_shared, ensure_not_poisoned, is_poisoned,
        ensure_can_ref, hpa, hb]
    have hstep2 : step ⟨0, m, na, false⟩ .decShared = some ⟨0, m, na, false⟩ := by
      simp [step, apply, decrement_shared, ensure_not_poisoned, is_poisoned]
    rw [run_cons_of_step _ _ _ _ hstep1, run_cons_of_step _ _ _ _ hstep2]
  · have hb : (m == na + 1) = false := beq_eq_false_iff_ne.mpr hc
    have hstep1 : step ⟨a, m, na, false⟩ .incShared = some ⟨a + 1, m, na, false⟩ := by
      simp [step, apply, increment_shared, ensure_not_poisoned, is_poisoned,
        ensure_can_ref, hpa, hb, usizeCheckedAdd, hmax]
    have hpa2 : has_possibly_aliasing ⟨a + 1, m, na, false⟩ = some (m == na + 1) := by
      have h := has_possibly_aliasing_of_inv ⟨a + 1, m, na, false⟩ h1 h2
      simpa using h
    have hstep2 : step ⟨a + 1, m, na, false⟩ .decShared = some ⟨a, m, na, false⟩ := by
      simp [step, apply, decrement_shared, ensure_not_poisoned, is_poisoned, hpa2, hb]
    rw [run_cons_of_step _ _ _ _ hstep1, run_cons_of_step _ _ _ _ hstep2]

/-- Executing `n` shared increments from a state with `k` shared borrows
and no mutable borrows yields `k + n` shared borrows, as long as the
counter stays representable. -/
theorem run_replicate_inc (n : Nat) : ∀ k, k + n ≤ USIZE_MAX →
    run ⟨k, 0, 0, false⟩ (List.replicate n .incShared) = some ⟨k + n, 0, 0, false⟩ := by
  induction n with
  | zero => intro k h; simp [run]
  | succ n ih =>
    intro k h
    rw [List.replicate_succ]
    have hpa : has_possibly_aliasing ⟨k, 0, 0, false⟩ = some false := by
      simp [has_possibly_aliasing]
    have hk : k + 1 ≤ USIZE_MAX := by omega
    have hstep : step ⟨k, 0, 0, false⟩ .incShared = some ⟨k + 1, 0, 0, false⟩ := by
      simp [step, apply, increment_shared, ensure_not_poisoned, is_poisoned, ensure_can_ref,
        hpa, usizeCheckedAdd, hk]
    rw [run_cons_of_step _ _ _ _ hstep, ih (k + 1) (by omega)]
    have harith : k + 1 + n = k + (n + 1) := by omega
    rw [harith]

/-- C1: in every state reachable from `BorrowState::new()` by the six
public operations, `mut_count − non_aliasing_count ∈ {0, 1}`,
`non_aliasing_count ≤ mut_count`, and a live shared borrow forces the
possibly-aliasing difference to be `0`. -/
theorem claim_c1_reachable_invariant (s : BorrowState) (h : Reachable s) :
    s.mut_count - s.non_aliasing_count ≤ 1 ∧
    s.non_aliasing_count ≤ s.mut_count ∧
    (0 < s.shared_count → s.mut_count - s.non_aliasing_count = 0) := by
  obtain ⟨h1, h2, h3, -, -, -, -⟩ := reachable_inv s h
  exact ⟨by omega, h1, fun hs => by have := h3 hs; omega⟩

/-- Witness for C1 at the state reached by one `increment_shared`. -/
theorem claim_c1_witness :
    Reachable ⟨1, 0, 0, false⟩ ∧
    ((0 : Nat) - 0 ≤ 1 ∧ (0 : Nat) ≤ 0 ∧ (0 < (1 : Nat) → (0 : Nat) - 0 = 0)) :=
  ⟨⟨[.incShared], by decide⟩,
    claim_c1_reachable_invariant ⟨1, 0, 0, false⟩ ⟨[.incShared], by decide⟩⟩

/-- C9: in every reachable state with a live shared borrow,
`set_non_aliasing` fails with `NoAliasingRef` and leaves the state
unchanged, even though the function contains no explicit `shared_count`
check. -/
theorem claim_c9_shared_blocks_set_non_aliasing (s : BorrowState) (h : Reachable s)
    (hs : 0 < s.shared_count) :
    set_non_aliasing s = some (s, .error .NoAliasingRef) := by
  obtain ⟨h1, h2, h3, h4, h5, h6, h7⟩ := reachable_inv s h
  have hpa := has_possibly_aliasing_of_inv s h1 h2
  have hfalse : (s.mut_count == s.non_aliasing_count + 1) = false :=
    beq_eq_false_iff_ne.mpr (by have := h3 hs; omega)
  unfold set_non_aliasing
  rw [hpa, hfalse]

/-- Witness for C9 at the state reached by one `increment_shared`. -/
theorem claim_c9_witness :
    Reachable ⟨1, 0, 0, false⟩ ∧ 0 < (1 : Nat) ∧
    set_non_aliasing ⟨1, 0, 0, false⟩ =
      some (⟨1, 0, 0, false⟩, .error .NoAliasingRef) :=
  ⟨⟨[.incShared], by decide⟩, Nat.one_pos,
    claim_c9_shared_blocks_set_non_aliasing ⟨1, 0, 0, false⟩ ⟨[.incShared], by decide⟩
      Nat.one_pos⟩

/-- C10: on every reachable state no operation panics: the `usize`
subtraction in `has_possibly_aliasing` never underflows and its
assertion never fires, so each operation totalizes to `Ok` or `Err`. -/
theorem claim_c10_no_panic (s : BorrowState) (op : Op) (h : Reachable s) :
    (apply s op).isSome := by
  obtain ⟨s2, e, happ, -, -, -⟩ := apply_spec s op (reachable_inv s h)
  rw [happ]
  rfl

/-- Witness for C10 at the state reached by one `increment_mut` and one
`set_non_aliasing`, trying `decrement_mut`. -/
theorem claim_c10_witness :
    Reachable ⟨0, 1, 1, false⟩ ∧ (apply ⟨0, 1, 1, false⟩ .decMut).isSome :=
  ⟨⟨[.incMut, .setNonAliasing], by decide⟩,
    claim_c10_no_panic ⟨0, 1, 1, false⟩ .decMut ⟨[.incMut, .setNonAliasing], by decide⟩⟩

/-- C2: no reachable state is poisoned, and no operation on a reachable
state returns `IsPoisoned` or `Poisoned(_)` or produces a poisoned state:
the poison branches of `decrement_shared` and `decrement_mut` are
unreachable through the public operations. -/
theorem claim_c2_no_poison (s : BorrowState) (op : Op) (s2 : BorrowState)
    (e : Except BorrowStateErr Nat) (h : Reachable s) (happ : apply s op = some (s2, e)) :
    s.poisoned = false ∧ s2.poisoned = false ∧ isPoisonResult e = false := by
  have hinv := reachable_inv s h
  obtain ⟨t, e2, happ2, hinv2, hok, herr⟩ := apply_spec s op hinv
  rw [happ2] at happ
  have hpair : t = s2 ∧ e2 = e := by simpa using happ
  obtain ⟨rfl, rfl⟩ := hpair
  refine ⟨hinv.2.2.2.1, hinv2.2.2.2.1, ?_⟩
  cases e2 with
  | ok n => rfl
  | error err =>
    obtain ⟨-, hip, hp⟩ := herr err rfl
    cases err <;> first | rfl | (exact absurd rfl hip) | (exact absurd rfl (hp _))

/-- Witness for C2: `decrement_shared` on the fresh state. -/
theorem claim_c2_witness :
    Reachable BorrowState.new ∧
    apply BorrowState.new .decShared = some (BorrowState.new, .error .NoSharedRef) ∧
    (BorrowState.new.poisoned = false ∧ BorrowState.new.poisoned = false ∧
      isPoisonResult (.error .NoSharedRef) = false) :=
  ⟨⟨[], rfl⟩, by decide,
    claim_c2_no_poison BorrowState.new .decShared BorrowState.new (.error .NoSharedRef)
      ⟨[], rfl⟩ (by decide)⟩

/-- Once `poisoned` is set, no operation ever clears it: every state an
operation returns (on success or failure) is still poisoned. -/
theorem apply_poisoned_mono (s : BorrowState) (op : Op) (s2 : BorrowState)
    (e : Except BorrowStateErr Nat) (h : apply s op = some (s2, e)) (hp : s.poisoned = true) :
    s2.poisoned = true := by
  have hep : ensure_not_poisoned s = .error .IsPoisoned := by
    simp [ensure_not_poisoned, is_poisoned, hp]
  cases op
  case incShared =>
    simp only [apply] at h
    unfold increment_shared at h
    rw [hep] at h
    simp at h
    obtain ⟨rfl, -⟩ := h
    exact hp
  case decShared =>
    simp only [apply] at h
    unfold decrement_shared at h
    rw [hep] at h
    simp at h
    obtain ⟨rfl, -⟩ := h
    exact hp
  case incMut =>
    simp only [apply] at h
    unfold increment_mut at h
    rw [hep] at h
    simp at h
    obtain ⟨rfl, -⟩ := h
    exact hp
  case decMut =>
    simp only [apply] at h
    unfold decrement_mut at h
    rw [hep] at h
    simp at h
    obtain ⟨rfl, -⟩ := h
    exact hp
  case setNonAliasing =>
    simp only [apply] at h
    unfold set_non_aliasing at h
    split at h
    · simp at h
    · simp at h
      obtain ⟨rfl, -⟩ := h
      exact hp
    · split at h
      · simp at h
        obtain ⟨rfl, -⟩ := h
        exact hp
      · simp at h
        obtain ⟨rfl, -⟩ := h
        exact hp
  case unsetNonAliasing =>
    simp only [apply] at h
    unfold unset_non_aliasing at h
    split at h
    · simp at h
    · simp at h
      obtain ⟨rfl, -⟩ := h
      exact hp
    · split at h
      · simp at h
        obtain ⟨rfl, -⟩ := h
        exact hp
      · split at h
        · simp at h
          obtain ⟨rfl, -⟩ := h
          exact hp
        · split at h
          · simp at h
            obtain ⟨rfl, -⟩ := h
            exact hp
          · simp at h
            obtain ⟨rfl, -⟩ := h
            exact hp

/-- Counterexample to C4: on the poisoned state `(0, 1, 0, poisoned)`,
`set_non_aliasing` does not fail with `IsPoisoned` — it succeeds; so does
`unset_non_aliasing` on `(0, 1, 1, poisoned)`.  Neither function checks
the poison flag. -/
theorem claim_c4_counterexample :
    set_non_aliasing ⟨0, 1, 0, true⟩ = some (⟨0, 1, 1, true⟩, .ok 1) ∧
    unset_non_aliasing ⟨0, 1, 1, true⟩ = some (⟨0, 1, 0, true⟩, .ok 0) :=
  ⟨rfl, rfl⟩

/-- C4 (amended): on a poisoned state the four counting operations
(`increment_shared`, `decrement_shared`, `increment_mut`,
`decrement_mut`) check `poisoned` first and fail with `IsPoisoned`;
`set_non_aliasing` and `unset_non_aliasing` perform no poison check; and
no operation ever clears `poisoned` (poisoning is one-way). -/
theorem claim_c4_amended :
    (∀ s : BorrowState, s.poisoned = true →
      increment_shared s = some (s, .error .IsPoisoned) ∧
      decrement_shared s = some (s, .error .IsPoisoned) ∧
      increment_mut s = some (s, .error .IsPoisoned) ∧
      decrement_mut s = some (s, .error .IsPoisoned)) ∧
    (∀ (s : BorrowState) (op : Op) (s2 : BorrowState) (e : Except BorrowStateErr Nat),
      apply s op = some (s2, e) → s.poisoned = true → s2.poisoned = true) := by
  constructor
  · intro s hp
    have hep : ensure_not_poisoned s = .error .IsPoisoned := by
      simp [ensure_not_poisoned, is_poisoned, hp]
    refine ⟨?_, ?_, ?_, ?_⟩
    · unfold increment_shared
      rw [hep]
    · unfold decrement_shared
      rw [hep]
    · unfold increment_mut
      rw [hep]
    · unfold decrement_mut
      rw [hep]
  · intro s op s2 e h hp
    exact apply_poisoned_mono s op s2 e h hp

/-- Witness for C4 (amended) on concrete poisoned states. -/
theorem claim_c4_witness :
    (increment_shared ⟨0, 0, 0, true⟩ = some (⟨0, 0, 0, true⟩, .error .IsPoisoned) ∧
      decrement_shared ⟨0, 0, 0, true⟩ = some (⟨0, 0, 0, true⟩, .error .IsPoisoned) ∧
      increment_mut ⟨0, 0, 0, true⟩ = some (⟨0, 0, 0, true⟩, .error .IsPoisoned) ∧
      decrement_mut ⟨0, 0, 0, true⟩ = some (⟨0, 0, 0, true⟩, .error .IsPoisoned)) ∧
    (⟨0, 1, 1, true⟩ : BorrowState).poisoned = true :=
  ⟨claim_c4_amended.1 ⟨0, 0, 0, true⟩ rfl,
    claim_c4_amended.2 ⟨0, 1, 0, true⟩ .setNonAliasing ⟨0, 1, 1, true⟩ (.ok 1) rfl rfl⟩

/-- Counterexample to C6: when the shared counter sits at `usize::MAX`,
the `increment_shared` of an adjacent (inc, dec) pair fails with overflow
while the following `decrement_shared` still succeeds, so deleting the
pair changes the final state. -/
theorem claim_c6_counterexample :
    run BorrowState.new
        (List.replicate USIZE_MAX .incShared ++ (.incShared :: .decShared :: [])) ≠
      run BorrowState.new (List.replicate USIZE_MAX .incShared ++ []) := by
  have hrep : run BorrowState.new (List.replicate USIZE_MAX .incShared) =
      some ⟨USIZE_MAX, 0, 0, false⟩ := by
    have h := run_replicate_inc USIZE_MAX 0 (by omega)
    simpa [BorrowState.new] using h
  rw [run_append, run_append, hrep]
  show run ⟨USIZE_MAX, 0, 0, false⟩ (.incShared :: .decShared :: []) ≠
    run ⟨USIZE_MAX, 0, 0, false⟩ []
  have hpa : has_possibly_aliasing ⟨USIZE_MAX, 0, 0, false⟩ = some false := by
    simp [has_possibly_aliasing]
  have hnle : ¬(USIZE_MAX + 1 ≤ USIZE_MAX) := by omega
  have hstep1 : step ⟨USIZE_MAX, 0, 0, false⟩ .incShared = some ⟨USIZE_MAX, 0, 0, false⟩ := by
    simp [step, apply, increment_shared, ensure_not_poisoned, is_poisoned, ensure_can_ref,
      hpa, usizeCheckedAdd, hnle]
  have hz : USIZE_MAX ≠ 0 := by decide
  have hstep2 : step ⟨USIZE_MAX, 0, 0, false⟩ .decShared =
      some ⟨USIZE_MAX - 1, 0, 0, false⟩ := by
    simp [step, apply, decrement_shared, ensure_not_poisoned, is_poisoned, hz, hpa]
  rw [run_cons_of_step _ _ _ _ hstep1, run_cons_of_step _ _ _ _ hstep2]
  simp only [run]
  decide

/-- C6 (amended): deleting an adjacent (`increment_shared`,
`decrement_shared`) pair from a trace leaves the final state unchanged,
provided the shared counter at that point is not at `usize::MAX` (where
the increment would fail with overflow while the decrement still
succeeds). -/
theorem claim_c6_amended (l1 l2 : List Op) (s : BorrowState)
    (hs : run BorrowState.new l1 = some s) (hmax : s.shared_count ≠ USIZE_MAX) :
    run BorrowState.new (l1 ++ (.incShared :: .decShared :: l2)) =
      run BorrowState.new (l1 ++ l2) := by
  obtain ⟨h1, h2, h3, h4, h5, h6, h7⟩ := run_inv l1 BorrowState.new s Inv_new hs
  have hplus : s.shared_count + 1 ≤ USIZE_MAX := by omega
  rw [run_append, run_append, hs]
  show run s (.incShared :: .decShared :: l2) = run s l2
  rcases s with ⟨a, m, na, p⟩
  have hp : p = false := h4
  subst hp
  exact run_inc_dec a m na h1 h2 h3 hplus l2

/-- Witness for C6 (amended) on a small trace. -/
theorem claim_c6_witness :
    run BorrowState.new [] = some BorrowState.new ∧
    BorrowState.new.shared_count ≠ USIZE_MAX ∧
    run BorrowState.new ([] ++ (.incShared :: .decShared :: [.incMut])) =
      run BorrowState.new ([] ++ [.incMut]) :=
  ⟨rfl, by decide, claim_c6_amended [] [.incMut] BorrowState.new rfl (by decide)⟩

/-- C7: in a non-poisoned state with no possibly-aliasing mutable
reference and `shared_count = usize::MAX`, `increment_shared` fails with
the overflow error (`checked_add` returning `None` is mapped to the error
`"could not increment shared count"`) instead of wrapping, and leaves the
state — in particular `shared_count` — unchanged. -/
theorem claim_c7_overflow (s : BorrowState) (h4 : s.poisoned = false)
    (hna : s.mut_count = s.non_aliasing_count) (hmax : s.shared_count = USIZE_MAX) :
    increment_shared s = some (s, .error (.Custom "could not increment shared count")) := by
  have hpa : has_possibly_aliasing s = some (s.mut_count == s.non_aliasing_count + 1) :=
    has_possibly_aliasing_of_inv s (by omega) (by omega)
  have hfalse : (s.mut_count == s.non_aliasing_count + 1) = false :=
    beq_eq_false_iff_ne.mpr (by omega)
  have hnle : ¬(s.shared_count + 1 ≤ USIZE_MAX) := by omega
  simp [increment_shared, ensure_not_poisoned, is_poisoned, h4, ensure_can_ref, hpa, hfalse,
    usizeCheckedAdd, hnle]

/-- Witness for C7 at the saturated state itself. -/
theorem claim_c7_witness :
    (⟨USIZE_MAX, 0, 0, false⟩ : BorrowState).poisoned = false ∧
    (0 : Nat) = 0 ∧ USIZE_MAX = USIZE_MAX ∧
    increment_shared ⟨USIZE_MAX, 0, 0, false⟩ =
      some (⟨USIZE_MAX, 0, 0, false⟩, .error (.Custom "could not increment shared count")) :=
  ⟨rfl, rfl, rfl, claim_c7_overflow ⟨USIZE_MAX, 0, 0, false⟩ rfl rfl rfl⟩

end BorrowStateRs

namespace LibRs

/-- A `set_non_aliasing` call whose supplied reference does not match the
top of the address stack fails with the wrong-reference error and leaves
the cell — borrow counters and address stack — exactly unchanged. -/
theorem set_non_aliasing_wrong_ref (c : GdCell α) (p top : Nat)
    (hlast : c.current_ptr.getLast? = some top) (hne : top ≠ p) :
    set_non_aliasing c p = some (c, .error "wrong reference passed in") := by
  unfold set_non_aliasing
  rw [hlast]
  simp [hne]

/-- A `set_non_aliasing` call whose supplied reference matches the top of
the address stack but whose `increment_non_aliasing` fails still pushes
the matching address: the failed call returns the cell with a duplicate
top entry on the address stack. -/
theorem set_non_aliasing_push_on_fail (c : GdCell α) (p : Nat) (c2 : GdCell α) (msg : String)
    (hlast : c.current_ptr.getLast? = some p)
    (h : set_non_aliasing c p = some (c2, .error msg)) :
    c2 = { c with current_ptr := c.current_ptr.concat p } := by
  unfold set_non_aliasing at h
  rw [hlast] at h
  simp only [ne_eq, not_true_eq_false, if_false, ite_false] at h
  split at h
  · simp at h
  · simp at h
  · simp at h
    simpa [List.concat_eq_append] using h.1.symm

/-- C5: Scenario C on `GdCell` — acquire exclusive on a fresh cell
holding `V` (yielding a guard whose dereference is the reference `r` at
the base address of the cell), declare it non-aliasing, acquire exclusive
again, write `V2` through the inner guard, drop the inner guard, drop the
non-aliasing guard, and observe `V2` through `r`. -/
theorem claim_c5_reentrant_roundtrip (V V2 : Int) (base : Nat) :
    gd_mut (GdCell.new V base) =
      some (⟨⟨0, 1, 0⟩, V, [base], base⟩, .ok ⟨1, base⟩) ∧
    gd_mut_deref_mut ⟨⟨0, 1, 0⟩, V, [base], base⟩ ⟨1, base⟩ = some base ∧
    set_non_aliasing (⟨⟨0, 1, 0⟩, V, [base], base⟩ : GdCell Int) base =
      some (⟨⟨0, 1, 1⟩, V, [base, base], base⟩, .ok ()) ∧
    gd_mut (⟨⟨0, 1, 1⟩, V, [base, base], base⟩ : GdCell Int) =
      some (⟨⟨0, 2, 1⟩, V, [base, base], base⟩, .ok ⟨2, base⟩) ∧
    gd_mut_deref_mut ⟨⟨0, 2, 1⟩, V, [base, base], base⟩ ⟨2, base⟩ = some base ∧
    write_ptr ⟨⟨0, 2, 1⟩, V, [base, base], base⟩ base V2 =
      some ⟨⟨0, 2, 1⟩, V2, [base, base], base⟩ ∧
    drop_gd_mut (⟨⟨0, 2, 1⟩, V2, [base, base], base⟩ : GdCell Int) =
      some ⟨⟨0, 1, 1⟩, V2, [base, base], base⟩ ∧
    drop_non_aliasing_guard (⟨⟨0, 1, 1⟩, V2, [base, base], base⟩ : GdCell Int) =
      some ⟨⟨0, 1, 0⟩, V2, [base], base⟩ ∧
    read_ptr (⟨⟨0, 1, 0⟩, V2, [base], base⟩ : GdCell Int) base = some V2 := by
  have hle1 : (1 : Nat) ≤ USIZE_MAX := by decide
  have hle2 : (2 : Nat) ≤ USIZE_MAX := by decide
  refine ⟨?_, ?_, ?_, ?_, ?_, ?_, ?_, ?_, ?_⟩ <;>
    simp [gd_mut, GdCell.new, BorrowState.new, increment_mut, possibly_aliasing_count,
      usizeCheckedAdd, usizeCheckedSub, hle1, hle2, get_value, List.getLast?,
      gd_mut_deref_mut, set_non_aliasing, increment_non_aliasing, write_ptr, drop_gd_mut,
      decrement_mut, drop_non_aliasing_guard, decrement_non_aliasing, read_ptr]

/-- C8: Scenario D — with live exclusive borrows on two distinct cells,
passing the reference of the second cell to the
`set_non_aliasing` of the first cell fails with the wrong-reference error and returns the
first cell unchanged (the second cell is not touched at all). -/
theorem claim_c8_wrong_reference (V1 V2 : Int) (b1 b2 : Nat) (hne : b1 ≠ b2) :
    gd_mut (GdCell.new V1 b1) = some (⟨⟨0, 1, 0⟩, V1, [b1], b1⟩, .ok ⟨1, b1⟩) ∧
    gd_mut (GdCell.new V2 b2) = some (⟨⟨0, 1, 0⟩, V2, [b2], b2⟩, .ok ⟨1, b2⟩) ∧
    set_non_aliasing (⟨⟨0, 1, 0⟩, V1, [b1], b1⟩ : GdCell Int) b2 =
      some (⟨⟨0, 1, 0⟩, V1, [b1], b1⟩, .error "wrong reference passed in") := by
  have hle1 : (1 : Nat) ≤ USIZE_MAX := by decide
  refine ⟨?_, ?_, ?_⟩
  · simp [gd_mut, GdCell.new, BorrowState.new, increment_mut, possibly_aliasing_count,
      usizeCheckedAdd, hle1, get_value, List.getLast?]
  · simp [gd_mut, GdCell.new, BorrowState.new, increment_mut, possibly_aliasing_count,
      usizeCheckedAdd, hle1, get_value, List.getLast?]
  · exact set_non_aliasing_wrong_ref _ b2 b1 rfl hne

/-- Witness for C8 at base addresses `0` and `1`. -/
theorem claim_c8_witness :
    (0 : Nat) ≠ 1 ∧
    (gd_mut (GdCell.new (10 : Int) 0) = some (⟨⟨0, 1, 0⟩, 10, [0], 0⟩, .ok ⟨1, 0⟩) ∧
      gd_mut (GdCell.new (20 : Int) 1) = some (⟨⟨0, 1, 0⟩, 20, [1], 1⟩, .ok ⟨1, 1⟩) ∧
      set_non_aliasing (⟨⟨0, 1, 0⟩, (10 : Int), [0], 0⟩ : GdCell Int) 1 =
        some (⟨⟨0, 1, 0⟩, (10 : Int), [0], 0⟩, .error "wrong reference passed in")) :=
  ⟨by decide, claim_c8_wrong_reference 10 20 0 1 (by decide)⟩

end LibRs

/-- Counterexample to C3 as stated: on the state `(1, 1, 0)` (not
reachable, but C3 quantifies over every state) `decrement_shared` fails
*and* mutates the state (it sets the poison flag); and on a reachable
cell, a failed `GdCell::set_non_aliasing` with a matching reference
leaves the borrow counters unchanged but pushes a duplicate entry onto
the address stack. -/
theorem claim_c3_counterexample :
    (BorrowStateRs.decrement_shared ⟨1, 1, 0, false⟩ =
        some (⟨1, 1, 0, true⟩,
          .error (.Poisoned "shared reference tracked while aliasing mutable reference exists")) ∧
      (⟨1, 1, 0, true⟩ : BorrowStateRs.BorrowState) ≠ ⟨1, 1, 0, false⟩) ∧
    (LibRs.set_non_aliasing (⟨⟨0, 1, 1⟩, (0 : Int), [7, 7], 7⟩ : LibRs.GdCell Int) 7 =
        some (⟨⟨0, 1, 1⟩, (0 : Int), [7, 7, 7], 7⟩,
          .error
            "cannot set mut reference as non-aliasing when there are no possibly aliasing pointers") ∧
      (⟨⟨0, 1, 1⟩, (0 : Int), [7, 7, 7], 7⟩ : LibRs.GdCell Int) ≠
        ⟨⟨0, 1, 1⟩, (0 : Int), [7, 7], 7⟩) :=
  ⟨⟨rfl, by decide⟩, ⟨rfl, by decide⟩⟩

/-- C3 (amended): on every *reachable* `BorrowState`, each of the six
operations either succeeds moving exactly its documented counter by one
or fails leaving the state unchanged; `GdCell::set_non_aliasing` with a
non-matching reference fails leaving the cell exactly unchanged, while a
failed call with a matching reference leaves the borrow counters and
value unchanged but pushes a duplicate of the top address onto the
address stack. -/
theorem claim_c3_amended :
    (∀ (s : BorrowStateRs.BorrowState) (op : BorrowStateRs.Op), BorrowStateRs.Reachable s →
      ∃ s2 e, BorrowStateRs.apply s op = some (s2, e) ∧
        (∀ n, e = .ok n → s2 = BorrowStateRs.expected_on_success op s) ∧
        (∀ err, e = .error err → s2 = s)) ∧
    (∀ (c : LibRs.GdCell Int) (p top : Nat), c.current_ptr.getLast? = some top → top ≠ p →
      LibRs.set_non_aliasing c p = some (c, .error "wrong reference passed in")) ∧
    (∀ (c : LibRs.GdCell Int) (p : Nat) (c2 : LibRs.GdCell Int) (msg : String),
      c.current_ptr.getLast? = some p →
      LibRs.set_non_aliasing c p = some (c2, .error msg) →
      c2.state = c.state ∧ c2.value = c.value ∧
        c2.current_ptr = c.current_ptr.concat p) := by
  refine ⟨?_, ?_, ?_⟩
  · intro s op h
    obtain ⟨s2, e, happ, hinv, hok, herr⟩ :=
      BorrowStateRs.apply_spec s op (BorrowStateRs.reachable_inv s h)
    exact ⟨s2, e, happ, hok, fun err hE => (herr err hE).1⟩
  · intro c p top hlast hne
    exact LibRs.set_non_aliasing_wrong_ref c p top hlast hne
  · intro c p c2 msg hlast h
    have heq := LibRs.set_non_aliasing_push_on_fail c p c2 msg hlast h
    subst heq
    exact ⟨rfl, rfl, rfl⟩

/-- Witness for C3 (amended) on concrete inputs for all three parts. -/
theorem claim_c3_witness :
    BorrowStateRs.Reachable BorrowStateRs.BorrowState.new ∧
    (∃ s2 e, BorrowStateRs.apply BorrowStateRs.BorrowState.new .incShared = some (s2, e) ∧
      (∀ n, e = .ok n →
        s2 = BorrowStateRs.expected_on_success .incShared BorrowStateRs.BorrowState.new) ∧
      (∀ err, e = .error err → s2 = BorrowStateRs.BorrowState.new)) ∧
    LibRs.set_non_aliasing (⟨⟨0, 1, 0⟩, (0 : Int), [5], 5⟩ : LibRs.GdCell Int) 6 =
      some (⟨⟨0, 1, 0⟩, (0 : Int), [5], 5⟩, .error "wrong reference passed in") ∧
    ((⟨⟨0, 1, 1⟩, (0 : Int), [7, 7, 7], 7⟩ : LibRs.GdCell Int).state =
        (⟨⟨0, 1, 1⟩, (0 : Int), [7, 7], 7⟩ : LibRs.GdCell Int).state ∧
      (⟨⟨0, 1, 1⟩, (0 : Int), [7, 7, 7], 7⟩ : LibRs.GdCell Int).value =
        (⟨⟨0, 1, 1⟩, (0 : Int), [7, 7], 7⟩ : LibRs.GdCell Int).value ∧
      (⟨⟨0, 1, 1⟩, (0 : Int), [7, 7, 7], 7⟩ : LibRs.GdCell Int).current_ptr =
        (⟨⟨0, 1, 1⟩, (0 : Int), [7, 7], 7⟩ : LibRs.GdCell Int).current_ptr.concat 7) :=
  ⟨⟨[], rfl⟩,
    claim_c3_amended.1 BorrowStateRs.BorrowState.new .incShared ⟨[], rfl⟩,
    claim_c3_amended.2.1 ⟨⟨0, 1, 0⟩, (0 : Int), [5], 5⟩ 6 5 rfl (by decide),
    claim_c3_amended.2.2 ⟨⟨0, 1, 1⟩, (0 : Int), [7, 7], 7⟩ 7
      ⟨⟨0, 1, 1⟩, (0 : Int), [7, 7, 7], 7⟩
      "cannot set mut reference as non-aliasing when there are no possibly aliasing pointers"
      rfl rfl⟩
